import Mathlib

/-!
# AI Study Buddy — request-orchestration layer, shallow embedding

This file embeds the client-side request-orchestration code of the
AI-study-Buddy repository (`withRetry`, the `MODELS` fallback list,
`sendMessage`, `generateQuiz`, `generateFlashcards`) and proves the
spec's testable properties about it.

Modelling conventions:
* A thrown JS error is an `Err` (status code, `response.status`, message);
  the JS value `undefined` thrown by `throw lastError` when the loop never
  ran is `Thrown.undef`.
* Asynchronous operations become pure functions from an oracle describing
  the external service's behaviour (`Env.net`: model name and attempt
  index to outcome) to a result paired with a trace of observable events
  (network attempts, awaited delays, model switches).
* `JSON.parse` and the code-fence stripping `replace(/```json|```/g, "")`
  followed by `.trim()` are embedded as executable functions on strings.
-/

namespace StudyBuddy

/-- Role of a chat transcript entry ('user' | 'model'). -/
inductive Role where
  | user
  | model
deriving DecidableEq

/-- The `FileData` shape: inline attachment payload plus media type (part_001 lines 18-24). -/
structure FileData where
  data : String
  mimeType : String
  name : Option String
deriving DecidableEq

/-- The `ChatMessage` shape (part_001 lines 12-16). -/
structure ChatMessage where
  role : Role
  content : String
  files : List FileData
deriving DecidableEq

/-- A thrown JS error object: optional `status`, optional `response.status`,
and `message`. -/
structure Err where
  status : Option Nat
  responseStatus : Option Nat
  message : String
deriving DecidableEq

/-- A thrown JS value: either a proper error object or `undefined`
(what `throw lastError` throws when `lastError` was never assigned). -/
inductive Thrown where
  | undef
  | err (e : Err)
deriving DecidableEq

/-- Substring test on character lists (the semantics of JS
`String.prototype.includes`). -/
def hasSub (pat : List Char) : List Char → Bool
  | [] => pat.isEmpty
  | c :: rest => pat.isPrefixOf (c :: rest) || hasSub pat rest

/-- Substring test `s.includes(pat)` on strings. -/
def containsStr (s pat : String) : Bool :=
  hasSub pat.data s.data

/-- The status read `error?.status || error?.response?.status` (part_001 line 46): the
`status` field if present and truthy, otherwise `response.status`. -/
def statusOf (e : Err) : Option Nat :=
  match e.status with
  | some s => if s = 0 then e.responseStatus else some s
  | none => e.responseStatus

/-- The retry predicate of `withRetry` (part_001 line 49): status 429 or
503, or message containing "quota" or "fetch". -/
def isRetryable (e : Err) : Bool :=
  decide (statusOf e = some 429) || decide (statusOf e = some 503)
    || containsStr e.message "quota" || containsStr e.message "fetch"

/-- A turn of the upstream chat history: role plus text parts
(the shape built at part_001 lines 83-86). -/
structure Turn where
  role : Role
  textParts : List String
deriving DecidableEq

/-- A content part of an upstream request: text or inline binary data. -/
inductive ReqPart where
  | text (s : String)
  | inlineData (data mimeType : String)
deriving DecidableEq

/-- Observable events of one invocation: an invocation of the wrapped
operation (attempt `k` inside `withRetry`), an awaited backoff delay, or
a switch of the fallback loop to a candidate model carrying the request
it will send (history turns and content parts). -/
inductive Event where
  | attempt (k : Nat)
  | delay (ms : Nat)
  | callModel (model : String) (hist : List Turn) (parts : List ReqPart)
deriving DecidableEq

/-- The loop of `withRetry` (part_001 lines 41-57).  `i` is the attempt
index, `remaining` the number of loop iterations left, `lastError` the
`lastError` variable.  When `remaining` hits zero the trailing
`throw lastError` (line 58) runs; a never-assigned `lastError` throws
`undefined`. -/
def withRetryLoop {α : Type} (fn : Nat → Except Err α) (initialDelay : Nat) :
    Nat → Nat → Option Err → Except Thrown α × List Event
  | _, 0, lastError =>
    (match lastError with
     | some e => Except.error (Thrown.err e)
     | none => Except.error Thrown.undef, [])
  | i, r + 1, _lastError =>
    match fn i with
    | Except.ok v => (Except.ok v, [Event.attempt i])
    | Except.error e =>
      if isRetryable e then
        let next := withRetryLoop fn initialDelay (i + 1) r (some e)
        (next.1, Event.attempt i :: Event.delay (initialDelay * 2 ^ i) :: next.2)
      else
        (Except.error (Thrown.err e), [Event.attempt i])

/-- The wrapper `withRetry` (part_001 lines 39-59).  `fn k` is the outcome of the
`k`-th invocation of the wrapped operation.  `maxRetries` is an integer
to reflect that a caller may pass a non-positive count; the JS
`for (let i = 0; i < maxRetries; i++)` then runs `max maxRetries 0`
iterations. -/
def withRetry {α : Type} (fn : Nat → Except Err α) (maxRetries : Int)
    (initialDelay : Nat) : Except Thrown α × List Event :=
  withRetryLoop fn initialDelay 0 maxRetries.toNat none

/-- The trace `withRetry` produces when attempts `i, i+1, ...` all fail
with retryable errors for `r` iterations: each failed attempt is followed
by an awaited delay of `initialDelay * 2 ^ i`. -/
def retryTrace (initialDelay i : Nat) : Nat → List Event
  | 0 => []
  | r + 1 =>
    Event.attempt i :: Event.delay (initialDelay * 2 ^ i)
      :: retryTrace initialDelay (i + 1) r

/-- Number of `attempt` events in a trace: how often the wrapped
operation was invoked. -/
def numAttempts : List Event → Nat
  | [] => 0
  | Event.attempt _ :: rest => numAttempts rest + 1
  | _ :: rest => numAttempts rest

/-- The backtick character, `Char.ofNat 96`. -/
def tickC : Char := Char.ofNat 96

/-- The first regex alternative of `/` + "```json|```" + `/g`:
the character list of "```json". -/
def fenceJson : List Char := [tickC, tickC, tickC, 'j', 's', 'o', 'n']

/-- The second regex alternative: the character list of "```". -/
def fence : List Char := [tickC, tickC, tickC]

/-- One left-to-right pass of the global replace
`.replace(` + "/```json|```/g" + `, "")` (part_001 lines 147 and 181):
at each position, first try to consume "```json", then "```", else keep
the character.  Fuel-indexed for structural recursion; one unit of fuel
is spent per step and each step consumes at least one character, so
`fuel = length` always suffices. -/
def stripFencesGo : Nat → List Char → List Char
  | 0, cs => cs
  | _, [] => []
  | f + 1, c :: cs =>
    if fenceJson.isPrefixOf (c :: cs) then stripFencesGo f ((c :: cs).drop 7)
    else if fence.isPrefixOf (c :: cs) then stripFencesGo f ((c :: cs).drop 3)
    else c :: stripFencesGo f cs

/-- The global fence replace on a character list. -/
def stripFences (cs : List Char) : List Char :=
  stripFencesGo cs.length cs

/-- JS `String.prototype.trim` on a character list: drop whitespace from
both ends. -/
def trimChars (cs : List Char) : List Char :=
  ((cs.dropWhile Char.isWhitespace).reverse.dropWhile Char.isWhitespace).reverse

/-- The cleaning `text.replace(` + "/```json|```/g" + `, "").trim()` that the
structured operations apply to the raw response before `JSON.parse`. -/
def cleanResponse (s : String) : String :=
  String.mk (trimChars (stripFences s.data))

/-- A JSON value.  Numbers keep their source lexeme (no numeric claim
depends on their value). -/
inductive Json where
  | null
  | bool (b : Bool)
  | num (lexeme : String)
  | str (s : String)
  | arr (elems : List Json)
  | obj (fields : List (String × Json))

/-- The double-quote character. -/
def quoteC : Char := Char.ofNat 34

/-- The backslash character. -/
def backslashC : Char := Char.ofNat 92

/-- Left brace. -/
def lbraceC : Char := Char.ofNat 123

/-- Right brace. -/
def rbraceC : Char := Char.ofNat 125

/-- JSON whitespace (space, tab, line feed, carriage return). -/
def jsonWs (c : Char) : Bool :=
  c = ' ' || c = '\t' || c = '\n' || c = '\r'

/-- Skip leading JSON whitespace. -/
def skipWs : List Char → List Char
  | [] => []
  | c :: cs => if jsonWs c then skipWs cs else c :: cs

/-- Resolve a JSON string escape character. -/
def unescape (c : Char) : Option Char :=
  if c = quoteC then some quoteC
  else if c = backslashC then some backslashC
  else if c = '/' then some '/'
  else if c = 'n' then some '\n'
  else if c = 't' then some '\t'
  else if c = 'r' then some '\r'
  else if c = 'b' then some (Char.ofNat 8)
  else if c = 'f' then some (Char.ofNat 12)
  else none

/-- Parse the body of a JSON string after its opening quote; return the
decoded characters and the rest of the input after the closing quote. -/
def parseStrChars : List Char → Option (List Char × List Char)
  | [] => none
  | c :: cs =>
    if c = quoteC then some ([], cs)
    else if c = backslashC then
      match cs with
      | [] => none
      | e :: cs2 =>
        match unescape e with
        | some d =>
          match parseStrChars cs2 with
          | some (s, r) => some (d :: s, r)
          | none => none
        | none => none
    else
      match parseStrChars cs with
      | some (s, r) => some (c :: s, r)
      | none => none

/-- A character that may occur in a number lexeme. -/
def numChar (c : Char) : Bool :=
  c.isDigit || c = '-' || c = '+' || c = '.' || c = 'e' || c = 'E'

/-- What the parser is currently reading: a value, the remaining elements
of an array, or the remaining fields of an object. -/
inductive PTask where
  | val
  | elems (acc : List Json)
  | fields (acc : List (String × Json))

/-- Result of one parsing task. -/
inductive PRes where
  | v (j : Json)
  | vs (l : List Json)
  | fs (l : List (String × Json))

/-- Modelled from the spec: the ECMAScript `JSON.parse` builtin (the
repository calls it but its code is not in `src/`).  Recursive-descent
over a character list, fuel-indexed for structural recursion; `\u`
escapes are out of the modelled subset. -/
def parseStep : Nat → PTask → List Char → Option (PRes × List Char)
  | 0, _, _ => none
  | f + 1, PTask.val, cs =>
    match skipWs cs with
    | [] => none
    | c :: rest =>
      if c = lbraceC then
        match skipWs rest with
        | [] => none
        | d :: r2 =>
          if d = rbraceC then some (PRes.v (Json.obj []), r2)
          else
            match parseStep f (PTask.fields []) (d :: r2) with
            | some (PRes.fs l, r) => some (PRes.v (Json.obj l), r)
            | _ => none
      else if c = '[' then
        match skipWs rest with
        | [] => none
        | d :: r2 =>
          if d = ']' then some (PRes.v (Json.arr []), r2)
          else
            match parseStep f (PTask.elems []) (d :: r2) with
            | some (PRes.vs l, r) => some (PRes.v (Json.arr l), r)
            | _ => none
      else if c = quoteC then
        match parseStrChars rest with
        | some (s, r) => some (PRes.v (Json.str (String.mk s)), r)
        | none => none
      else if ['n', 'u', 'l', 'l'].isPrefixOf (c :: rest) then
        some (PRes.v Json.null, rest.drop 3)
      else if ['t', 'r', 'u', 'e'].isPrefixOf (c :: rest) then
        some (PRes.v (Json.bool true), rest.drop 3)
      else if ['f', 'a', 'l', 's', 'e'].isPrefixOf (c :: rest) then
        some (PRes.v (Json.bool false), rest.drop 4)
      else if numChar c then
        some (PRes.v (Json.num (String.mk ((c :: rest).takeWhile numChar))),
          (c :: rest).dropWhile numChar)
      else none
  | f + 1, PTask.elems acc, cs =>
    match parseStep f PTask.val cs with
    | some (PRes.v j, r) =>
      (match skipWs r with
       | [] => none
       | c :: r2 =>
         if c = ',' then parseStep f (PTask.elems (acc ++ [j])) r2
         else if c = ']' then some (PRes.vs (acc ++ [j]), r2)
         else none)
    | _ => none
  | f + 1, PTask.fields acc, cs =>
    match skipWs cs with
    | [] => none
    | c :: rest =>
      if c = quoteC then
        match parseStrChars rest with
        | some (k, r) =>
          (match skipWs r with
           | [] => none
           | d :: r2 =>
             if d = ':' then
               match parseStep f PTask.val r2 with
               | some (PRes.v j, r3) =>
                 (match skipWs r3 with
                  | [] => none
                  | e2 :: r5 =>
                    if e2 = ',' then
                      parseStep f (PTask.fields (acc ++ [(String.mk k, j)])) r5
                    else if e2 = rbraceC then
                      some (PRes.fs (acc ++ [(String.mk k, j)]), r5)
                    else none)
               | _ => none
             else none)
        | none => none
      else none

/-- Run `JSON.parse` on a string: parse one value and require only trailing
whitespace after it. -/
def jsonParse (s : String) : Option Json :=
  match parseStep (2 * s.data.length + 8) PTask.val s.data with
  | some (PRes.v j, r) => if (skipWs r).isEmpty then some j else none
  | _ => none

/-- The execution environment of one invocation: the API key as read by
`getApiKey` (part_001 lines 3-5, empty string when absent) and the
external service's behaviour — `net modelName k` is the outcome of the
`k`-th attempt of the wrapped network call against `modelName`. -/
structure Env where
  apiKey : String
  net : String → Nat → Except Err String

/-- The fixed ordered candidate model list (part_001 line 61). -/
def MODELS : List String :=
  ["gemini-flash-latest", "gemini-2.0-flash",
   "gemini-2.0-flash-lite-preview-09-2025", "gemini-1.5-pro"]

/-- The missing-key error message (part_001 line 66). -/
def keyMissingMsg : String :=
  "Gemini API Key is missing. Please add VITE_GEMINI_API_KEY to your environment variables."

/-- The quota exhaustion message (part_001 line 120). -/
def quotaExhaustedMsg : String :=
  "API Quota Exceeded across all available models. Please check your Google AI Studio billing or wait a few minutes."

/-- The key/model-not-found exhaustion message (part_001 line 123). -/
def modelsNotFoundMsg : String :=
  "Gemini models not found for this API key. Please verify your key in Google AI Studio."

/-- Prefix of the generic sendMessage exhaustion message (part_001 line 125). -/
def sendGenericLead : String :=
  "Failed to get AI response after trying multiple models. "

/-- Convert a transcript entry to the upstream turn format
(part_001 lines 83-86): same role, content as the single text part. -/
def toTurn (m : ChatMessage) : Turn :=
  ⟨m.role, [m.content]⟩

/-- The history slicing of part_001 line 80:
`history[0]?.role === 'model' ? history.slice(1) : history`. -/
def apiHistoryOf : List ChatMessage → List ChatMessage
  | [] => []
  | h :: t => if h.role = Role.model then t else h :: t

/-- The upstream history `sendMessage` passes to `startChat`
(part_001 lines 80-87). -/
def upstreamHistory (history : List ChatMessage) : List Turn :=
  (apiHistoryOf history).map toTurn

/-- The prompt parts of `sendMessage` (part_001 lines 89-92): the new
message text followed by each attachment's inline data. -/
def sendParts (currentMessage : String) (files : List FileData) : List ReqPart :=
  ReqPart.text currentMessage :: files.map fun f => ReqPart.inlineData f.data f.mimeType

/-- Conversion `errOf` of a caught thrown value to the `lastError` variable:
a JS `undefined` behaves like a never-assigned `lastError` at every
later optional-chained read. -/
def errOf : Thrown → Option Err
  | Thrown.undef => none
  | Thrown.err e => some e

/-- The exhaustion synthesis of `sendMessage` (part_001 lines 119-125):
quota message if the last failure's message mentions "quota", the
key/model message if its `status` equals 404 or its message contains
"not found", otherwise the generic message carrying the last failure's
text (or "Please check your connection." when that text is empty or
`lastError` was never set — JS `||` treats the empty string as falsy). -/
def finalSendError : Option Err → Err
  | some e =>
    if containsStr e.message "quota" then ⟨none, none, quotaExhaustedMsg⟩
    else if e.status = some 404 ∨ containsStr e.message "not found" = true then
      ⟨none, none, modelsNotFoundMsg⟩
    else
      ⟨none, none, sendGenericLead ++
        (if e.message = "" then "Please check your connection." else e.message)⟩
  | none => ⟨none, none, sendGenericLead ++ "Please check your connection."⟩

/-- The fallback loop of `sendMessage` (part_001 lines 72-115).  Each
candidate's network call is wrapped in `withRetry` with the default
`maxRetries = 3`, `initialDelay = 1000`; on success the reply text is
returned; on any failure `lastError` is recorded and the loop advances
(the source's catch distinguishes 404- and 429-class failures but every
branch executes `continue`, lines 102-113). -/
def sendMessageLoop (env : Env) (hist : List ChatMessage) (cur : String)
    (files : List FileData) : List String → Option Err → Except Thrown String × List Event
  | [], lastError => (Except.error (Thrown.err (finalSendError lastError)), [])
  | mn :: rest, _lastError =>
    match withRetry (env.net mn) 3 1000 with
    | (Except.ok txt, evs) =>
      (Except.ok txt, Event.callModel mn (upstreamHistory hist) (sendParts cur files) :: evs)
    | (Except.error t, evs) =>
      let next := sendMessageLoop env hist cur files rest (errOf t)
      (next.1, (Event.callModel mn (upstreamHistory hist) (sendParts cur files) :: evs) ++ next.2)

/-- The operation `sendMessage` (part_001 lines 63-126): fail fast with the missing-key
message when the key is absent (empty), otherwise run the fallback loop
over `MODELS`. -/
def sendMessage (env : Env) (hist : List ChatMessage) (cur : String)
    (files : List FileData) : Except Thrown String × List Event :=
  if env.apiKey = "" then
    (Except.error (Thrown.err ⟨none, none, keyMissingMsg⟩), [])
  else
    sendMessageLoop env hist cur files MODELS none

/-- Modelled from the spec: the `SyntaxError` the host throws out of
`JSON.parse` on malformed input (the parse error "propagates as an opaque
exception"); its host-specific text carries none of the classifier
substrings. -/
def parseFailErr : Err :=
  ⟨none, none, "Unexpected token in JSON"⟩

/-- The shared fallback loop of `generateQuiz` (part_001 lines 135-156)
and `generateFlashcards` (lines 169-190) — the two functions are
identical apart from the prompt parts and the final message prefix.
Neither checks the API key.  On success the raw text is cleaned and
parsed; a parse failure is caught by the surrounding catch and advances
the loop like any other failure. -/
def genLoop (env : Env) (parts : List ReqPart) (lead : String) :
    List String → Option Err → Except Thrown Json × List Event
  | [], lastError =>
    (Except.error (Thrown.err ⟨none, none, lead ++
      (match lastError with | some e => e.message | none => "")⟩), [])
  | mn :: rest, _lastError =>
    match withRetry (env.net mn) 3 1000 with
    | (Except.ok txt, evs) =>
      match jsonParse (cleanResponse txt) with
      | some v => (Except.ok v, Event.callModel mn [] parts :: evs)
      | none =>
        let next := genLoop env parts lead rest (some parseFailErr)
        (next.1, (Event.callModel mn [] parts :: evs) ++ next.2)
    | (Except.error t, evs) =>
      let next := genLoop env parts lead rest (errOf t)
      (next.1, (Event.callModel mn [] parts :: evs) ++ next.2)

/-- The quiz prompt (part_001 lines 129-131). -/
def quizPrompt (topic : String) (fileData : Option FileData) (difficulty : String)
    (count : Nat) : String :=
  "Generate a " ++ toString count ++ "-question multiple choice quiz about \"" ++ topic
    ++ "\" with a difficulty level of \"" ++ difficulty ++ "\". \n  Provide the output in JSON format: \x7b \"questions\": [\x7b \"question\": \"...\", \"options\": [\"...\", \"...\"], \"answer\": \"...\" \x7d] \x7d\n  "
    ++ (match fileData with
        | some _ => "Base the quiz on the provided file content."
        | none => "")

/-- The request parts of `generateQuiz` (part_001 lines 140-143). -/
def quizParts (topic : String) (fileData : Option FileData) (difficulty : String)
    (count : Nat) : List ReqPart :=
  ReqPart.text (quizPrompt topic fileData difficulty count) ::
    (match fileData with
     | some f => [ReqPart.inlineData f.data f.mimeType]
     | none => [])

/-- Prefix of the quiz exhaustion message (part_001 line 159); the JS
appends `lastError?.message || ""`. -/
def quizFinalLead : String :=
  "Failed to generate quiz after trying multiple models. "

/-- The operation `generateQuiz` (part_001 lines 128-160). -/
def generateQuiz (env : Env) (topic : String) (fileData : Option FileData)
    (difficulty : String) (count : Nat) : Except Thrown Json × List Event :=
  genLoop env (quizParts topic fileData difficulty count) quizFinalLead MODELS none

/-- The flashcard prompt (part_001 lines 163-165). -/
def cardPrompt (topic : String) (fileData : Option FileData) (count : Nat) : String :=
  "Generate " ++ toString count ++ " flashcards about \"" ++ topic
    ++ "\". \n  Provide the output in JSON format: \x7b \"flashcards\": [\x7b \"front\": \"...\", \"back\": \"...\" \x7d] \x7d\n  "
    ++ (match fileData with
        | some _ => "Base the flashcards on the provided file content."
        | none => "")

/-- The request parts of `generateFlashcards` (part_001 lines 174-177). -/
def cardParts (topic : String) (fileData : Option FileData) (count : Nat) : List ReqPart :=
  ReqPart.text (cardPrompt topic fileData count) ::
    (match fileData with
     | some f => [ReqPart.inlineData f.data f.mimeType]
     | none => [])

/-- Prefix of the flashcards exhaustion message (part_001 line 193). -/
def cardsFinalLead : String :=
  "Failed to generate flashcards after trying multiple models. "

/-- The operation `generateFlashcards` (part_001 lines 162-194). -/
def generateFlashcards (env : Env) (topic : String) (fileData : Option FileData)
    (count : Nat) : Except Thrown Json × List Event :=
  genLoop env (cardParts topic fileData count) cardsFinalLead MODELS none

/-! ## Properties of the Resilience Wrapper -/

lemma numAttempts_retryTrace (d : Nat) : ∀ r i, numAttempts (retryTrace d i r) = r := by
  intro r
  induction r with
  | zero => intro i; simp [retryTrace, numAttempts]
  | succ r ih => intro i; simp [retryTrace, numAttempts, ih]

lemma withRetryLoop_retry_step {α : Type} (fn : Nat → Except Err α) (d i r : Nat)
    (le : Option Err) (e : Err) (hf : fn i = Except.error e) (hr : isRetryable e = true) :
    withRetryLoop fn d i (r + 1) le =
      ((withRetryLoop fn d (i + 1) r (some e)).1,
        Event.attempt i :: Event.delay (d * 2 ^ i) :: (withRetryLoop fn d (i + 1) r (some e)).2) := by
  conv_lhs => rw [withRetryLoop]
  simp [hf, hr]

lemma withRetryLoop_all_retryable {α : Type} (fn : Nat → Except Err α) (d : Nat)
    (e : Nat → Err) :
    ∀ r i le, (∀ j, i ≤ j → j < i + (r + 1) → fn j = Except.error (e j) ∧ isRetryable (e j) = true) →
      withRetryLoop fn d i (r + 1) le =
        (Except.error (Thrown.err (e (i + r))), retryTrace d i (r + 1)) := by
  intro r
  induction r with
  | zero =>
    intro i le h
    obtain ⟨hf, hr⟩ := h i (Nat.le_refl i) (by omega)
    simp [withRetryLoop, hf, hr, retryTrace]
  | succ r ih =>
    intro i le h
    obtain ⟨hf, hr⟩ := h i (Nat.le_refl i) (by omega)
    have hrec := ih (i + 1) (some (e i)) (fun j hj1 hj2 => h j (by omega) (by omega))
    have hidx : i + 1 + r = i + (r + 1) := by omega
    rw [hidx] at hrec
    rw [withRetryLoop_retry_step fn d i (r + 1) le (e i) hf hr, hrec]
    simp [retryTrace]

/-- C1: when every attempt fails with a retryable-classified failure,
`withRetry` invokes the operation exactly `maxRetries` times, awaits
`initialDelay * 2 ^ i` after the `i`-th failed attempt (`i` starting at
0, pure exponential backoff), and then propagates the last observed
failure itself (unwrapped). -/
theorem c1_withRetry_exhausts_all_retryable {α : Type} (fn : Nat → Except Err α)
    (m d : Nat) (e : Nat → Err) (hm : 1 ≤ m)
    (h : ∀ j, j < m → fn j = Except.error (e j) ∧ isRetryable (e j) = true) :
    withRetry fn (m : Int) d = (Except.error (Thrown.err (e (m - 1))), retryTrace d 0 m)
      ∧ numAttempts (retryTrace d 0 m) = m := by
  obtain ⟨r, rfl⟩ : ∃ r, m = r + 1 := ⟨m - 1, by omega⟩
  constructor
  · have hloop := withRetryLoop_all_retryable fn d e r 0 none
      (fun j hj1 hj2 => h j (by omega))
    unfold withRetry
    have hcast : ((r + 1 : Nat) : Int).toNat = r + 1 := by omega
    rw [hcast, hloop]
    simp
  · exact numAttempts_retryTrace d (r + 1) 0

/-- Error used by the C1 witness: a plain 429 rate-limit failure. -/
def e429W : Err := ⟨some 429, none, "rate limited"⟩

theorem c1_witness :
    withRetry (fun _ => Except.error (α := Nat) e429W) ((3 : Nat) : Int) 1000 =
      (Except.error (Thrown.err e429W), retryTrace 1000 0 3)
      ∧ numAttempts (retryTrace 1000 0 3) = 3 :=
  c1_withRetry_exhausts_all_retryable (fun _ => Except.error e429W) 3 1000 (fun _ => e429W)
    (by decide) (fun j _ => ⟨rfl, (by decide : isRetryable e429W = true)⟩)

/-- C5: a non-retryable failure on the first attempt is propagated
immediately: one single invocation, no awaited delay, the failure itself
unwrapped. -/
theorem c5_nonretryable_propagates_immediately {α : Type} (fn : Nat → Except Err α)
    (maxRetries : Int) (d : Nat) (e : Err) (hm : 1 ≤ maxRetries)
    (hf : fn 0 = Except.error e) (hr : isRetryable e = false) :
    withRetry fn maxRetries d = (Except.error (Thrown.err e), [Event.attempt 0]) := by
  obtain ⟨r, hr2⟩ : ∃ r, maxRetries.toNat = r + 1 := ⟨maxRetries.toNat - 1, by omega⟩
  unfold withRetry
  rw [hr2]
  simp [withRetryLoop, hf, hr]

/-- Error used by the C5 witness: a 400-class failure, not retryable. -/
def e400W : Err := ⟨some 400, none, "Bad Request"⟩

theorem c5_witness :
    withRetry (fun _ => Except.error (α := Nat) e400W) 3 1000 =
      (Except.error (Thrown.err e400W), [Event.attempt 0]) :=
  c5_nonretryable_propagates_immediately (fun _ => Except.error e400W) 3 1000 e400W
    (by decide) rfl (by decide)

/-- C9: with a non-positive `maxRetries` the loop body never runs, the
wrapped operation is never invoked, and the trailing `throw lastError`
throws the never-assigned `lastError`, i.e. the JS value `undefined`. -/
theorem c9_nonpositive_maxRetries_throws_undefined {α : Type} (fn : Nat → Except Err α)
    (maxRetries : Int) (d : Nat) (hm : maxRetries ≤ 0) :
    withRetry fn maxRetries d = (Except.error Thrown.undef, [])
      ∧ numAttempts (withRetry fn maxRetries d).2 = 0 := by
  have h0 : maxRetries.toNat = 0 := by omega
  unfold withRetry
  rw [h0]
  simp [withRetryLoop, numAttempts]

theorem c9_witness :
    withRetry (fun _ => Except.ok (0 : Nat)) (-2) 1000 = (Except.error Thrown.undef, [])
      ∧ numAttempts (withRetry (fun _ => Except.ok (0 : Nat)) (-2) 1000).2 = 0 :=
  c9_nonpositive_maxRetries_throws_undefined (fun _ => Except.ok 0) (-2) 1000 (by decide)

/-! ## History shaping (C4) -/

/-- C4: a transcript whose first entry is model-authored has exactly that
leading entry excluded from the upstream history; an empty transcript or
one whose first entry is user-authored is passed through entry for entry
in its original order (each entry converted to the upstream turn
format). -/
theorem c4_history_shaping (history : List ChatMessage) :
    (∀ h t, history = h :: t → h.role = Role.model →
      upstreamHistory history = t.map toTurn)
    ∧ (history = [] → upstreamHistory history = [])
    ∧ (∀ h t, history = h :: t → h.role = Role.user →
      upstreamHistory history = history.map toTurn) := by
  refine ⟨?_, ?_, ?_⟩
  · rintro h t rfl hm
    simp [upstreamHistory, apiHistoryOf, hm]
  · rintro rfl
    simp [upstreamHistory, apiHistoryOf]
  · rintro h t rfl hu
    simp [upstreamHistory, apiHistoryOf, hu]

/-- A model-authored greeting entry, used by the C4 witness. -/
def msgM : ChatMessage := ⟨Role.model, "welcome", []⟩

/-- A user-authored entry, used by the C4 witness. -/
def msgU : ChatMessage := ⟨Role.user, "hello", []⟩

theorem c4_witness :
    upstreamHistory [msgM, msgU] = [msgU].map toTurn
    ∧ upstreamHistory ([] : List ChatMessage) = []
    ∧ upstreamHistory [msgU, msgM] = [msgU, msgM].map toTurn :=
  ⟨(c4_history_shaping [msgM, msgU]).1 msgM [msgU] rfl rfl,
   (c4_history_shaping []).2.1 rfl,
   (c4_history_shaping [msgU, msgM]).2.2 msgU [msgM] rfl rfl⟩

/-! ## Fallback-loop step lemmas -/

lemma withRetryLoop_trace_head {α : Type} (fn : Nat → Except Err α) (d i r : Nat)
    (le : Option Err) :
    ∃ t, (withRetryLoop fn d i (r + 1) le).2 = Event.attempt i :: t := by
  cases hfn : fn i with
  | ok v => exact ⟨[], by simp [withRetryLoop, hfn]⟩
  | error e =>
    by_cases hr : isRetryable e = true
    · refine ⟨Event.delay (d * 2 ^ i) :: (withRetryLoop fn d (i + 1) r (some e)).2, ?_⟩
      rw [withRetryLoop_retry_step fn d i r le e hfn hr]
    · exact ⟨[], by simp [withRetryLoop, hfn, hr]⟩

lemma withRetry_trace_head {α : Type} (fn : Nat → Except Err α) (d : Nat) :
    ∃ t, (withRetry fn 3 d).2 = Event.attempt 0 :: t :=
  withRetryLoop_trace_head fn d 0 2 none

lemma sendMessageLoop_ok_step (env : Env) (hist : List ChatMessage) (cur : String)
    (files : List FileData) (mn : String) (rest : List String) (le : Option Err)
    (txt : String) (evs : List Event)
    (hw : withRetry (env.net mn) 3 1000 = (Except.ok txt, evs)) :
    sendMessageLoop env hist cur files (mn :: rest) le =
      (Except.ok txt,
        Event.callModel mn (upstreamHistory hist) (sendParts cur files) :: evs) := by
  conv_lhs => rw [sendMessageLoop]
  simp [hw]

lemma sendMessageLoop_err_step (env : Env) (hist : List ChatMessage) (cur : String)
    (files : List FileData) (mn : String) (rest : List String) (le : Option Err)
    (t : Thrown) (evs : List Event)
    (hw : withRetry (env.net mn) 3 1000 = (Except.error t, evs)) :
    sendMessageLoop env hist cur files (mn :: rest) le =
      ((sendMessageLoop env hist cur files rest (errOf t)).1,
        (Event.callModel mn (upstreamHistory hist) (sendParts cur files) :: evs)
          ++ (sendMessageLoop env hist cur files rest (errOf t)).2) := by
  conv_lhs => rw [sendMessageLoop]
  simp [hw]

lemma genLoop_ok_step (env : Env) (parts : List ReqPart) (pfx mn : String)
    (rest : List String) (le : Option Err) (txt : String) (evs : List Event) (v : Json)
    (hw : withRetry (env.net mn) 3 1000 = (Except.ok txt, evs))
    (hj : jsonParse (cleanResponse txt) = some v) :
    genLoop env parts pfx (mn :: rest) le =
      (Except.ok v, Event.callModel mn [] parts :: evs) := by
  conv_lhs => rw [genLoop]
  simp [hw, hj]

lemma genLoop_parsefail_step (env : Env) (parts : List ReqPart) (pfx mn : String)
    (rest : List String) (le : Option Err) (txt : String) (evs : List Event)
    (hw : withRetry (env.net mn) 3 1000 = (Except.ok txt, evs))
    (hj : jsonParse (cleanResponse txt) = none) :
    genLoop env parts pfx (mn :: rest) le =
      ((genLoop env parts pfx rest (some parseFailErr)).1,
        (Event.callModel mn [] parts :: evs)
          ++ (genLoop env parts pfx rest (some parseFailErr)).2) := by
  conv_lhs => rw [genLoop]
  simp [hw, hj]

lemma genLoop_err_step (env : Env) (parts : List ReqPart) (pfx mn : String)
    (rest : List String) (le : Option Err) (t : Thrown) (evs : List Event)
    (hw : withRetry (env.net mn) 3 1000 = (Except.error t, evs)) :
    genLoop env parts pfx (mn :: rest) le =
      ((genLoop env parts pfx rest (errOf t)).1,
        (Event.callModel mn [] parts :: evs)
          ++ (genLoop env parts pfx rest (errOf t)).2) := by
  conv_lhs => rw [genLoop]
  simp [hw]

lemma sendMessageLoop_all_fail (env : Env) (hist : List ChatMessage) (cur : String)
    (files : List FileData) (E : String → Err) :
    ∀ (models : List String) (lastm : String) (le : Option Err),
      models.getLast? = some lastm →
      (∀ m ∈ models, ∃ evs, withRetry (env.net m) 3 1000 = (Except.error (Thrown.err (E m)), evs)) →
      (sendMessageLoop env hist cur files models le).1 =
        Except.error (Thrown.err (finalSendError (some (E lastm)))) := by
  intro models
  induction models with
  | nil =>
    intro lastm le h _
    simp at h
  | cons mn rest ih =>
    intro lastm le hlast hall
    obtain ⟨evs, hw⟩ := hall mn (List.mem_cons_self mn rest)
    rw [sendMessageLoop_err_step env hist cur files mn rest le _ evs hw]
    cases rest with
    | nil =>
      simp [List.getLast?] at hlast
      subst hlast
      simp [sendMessageLoop, errOf]
    | cons m2 rest2 =>
      have hlast2 : (m2 :: rest2).getLast? = some lastm := by
        rwa [List.getLast?_cons_cons] at hlast
      exact ih lastm (errOf (Thrown.err (E mn))) hlast2
        (fun m hm => hall m (List.mem_cons_of_mem mn hm))

lemma genLoop_all_fail (env : Env) (parts : List ReqPart) (pfx : String) (E : String → Err) :
    ∀ (models : List String) (lastm : String) (le : Option Err),
      models.getLast? = some lastm →
      (∀ m ∈ models, ∃ evs, withRetry (env.net m) 3 1000 = (Except.error (Thrown.err (E m)), evs)) →
      (genLoop env parts pfx models le).1 =
        Except.error (Thrown.err ⟨none, none, pfx ++ (E lastm).message⟩) := by
  intro models
  induction models with
  | nil =>
    intro lastm le h _
    simp at h
  | cons mn rest ih =>
    intro lastm le hlast hall
    obtain ⟨evs, hw⟩ := hall mn (List.mem_cons_self mn rest)
    rw [genLoop_err_step env parts pfx mn rest le _ evs hw]
    cases rest with
    | nil =>
      simp [List.getLast?] at hlast
      subst hlast
      simp [genLoop, errOf]
    | cons m2 rest2 =>
      have hlast2 : (m2 :: rest2).getLast? = some lastm := by
        rwa [List.getLast?_cons_cons] at hlast
      exact ih lastm (errOf (Thrown.err (E mn))) hlast2
        (fun m hm => hall m (List.mem_cons_of_mem mn hm))

lemma hasSub_append_right (pat : List Char) :
    ∀ a b : List Char, hasSub pat b = true → hasSub pat (a ++ b) = true := by
  intro a
  induction a with
  | nil => intro b h; simpa using h
  | cons c a' ih =>
    intro b h
    rw [List.cons_append, hasSub]
    rw [ih b h]
    simp

lemma containsStr_append_right (s t pat : String) (h : containsStr t pat = true) :
    containsStr (s ++ t) pat = true := by
  unfold containsStr at h ⊢
  rw [String.data_append]
  exact hasSub_append_right pat.data s.data t.data h

/-! ## Exhaustion-message synthesis (C3, C7) -/

/-- C3 (amended): when every candidate fails and the last observed
failure's message mentions "quota", `sendMessage` surfaces the fixed
quota message, which contains the word "Quota"; `generateQuiz` and
`generateFlashcards` surface their generic prefix followed by the last
failure's raw message verbatim — that message contains "quota"
(lower-case), but no "Quota" is synthesized. -/
theorem c3_quota_exhaustion_messages (env : Env) (hist : List ChatMessage)
    (cur topic diff : String) (files : List FileData) (fd : Option FileData)
    (count : Nat) (E : String → Err)
    (hkey : env.apiKey ≠ "")
    (hall : ∀ m ∈ MODELS, ∃ evs,
      withRetry (env.net m) 3 1000 = (Except.error (Thrown.err (E m)), evs))
    (hq : containsStr (E "gemini-1.5-pro").message "quota" = true) :
    ((sendMessage env hist cur files).1 =
        Except.error (Thrown.err ⟨none, none, quotaExhaustedMsg⟩)
      ∧ containsStr quotaExhaustedMsg "Quota" = true)
    ∧ ((generateQuiz env topic fd diff count).1 =
        Except.error (Thrown.err ⟨none, none, quizFinalLead ++ (E "gemini-1.5-pro").message⟩)
      ∧ containsStr (quizFinalLead ++ (E "gemini-1.5-pro").message) "quota" = true)
    ∧ ((generateFlashcards env topic fd count).1 =
        Except.error (Thrown.err ⟨none, none, cardsFinalLead ++ (E "gemini-1.5-pro").message⟩)
      ∧ containsStr (cardsFinalLead ++ (E "gemini-1.5-pro").message) "quota" = true) := by
  refine ⟨⟨?_, by decide⟩, ⟨?_, ?_⟩, ⟨?_, ?_⟩⟩
  · unfold sendMessage
    rw [if_neg hkey]
    rw [sendMessageLoop_all_fail env hist cur files E MODELS "gemini-1.5-pro" none rfl hall]
    simp [finalSendError, hq]
  · unfold generateQuiz
    exact genLoop_all_fail env (quizParts topic fd diff count) quizFinalLead E MODELS
      "gemini-1.5-pro" none rfl hall
  · exact containsStr_append_right quizFinalLead (E "gemini-1.5-pro").message "quota" hq
  · unfold generateFlashcards
    exact genLoop_all_fail env (cardParts topic fd count) cardsFinalLead E MODELS
      "gemini-1.5-pro" none rfl hall
  · exact containsStr_append_right cardsFinalLead (E "gemini-1.5-pro").message "quota" hq

/-- Uniform quota failure used by the C3 counterexample and witness. -/
def eQuotaW : Err := ⟨none, none, "quota exceeded for project"⟩

/-- Environment whose every network attempt fails with `eQuotaW`. -/
def envQuotaW : Env := ⟨"key", fun _ _ => Except.error eQuotaW⟩

/-- C3 as stated is false for `generateQuiz`: with every candidate
failing on a quota error, the surfaced message carries only the raw
lower-case "quota" text and does not contain the word "Quota". -/
theorem c3_counterexample :
    (generateQuiz envQuotaW "Photosynthesis" none "medium" 5).1 =
      Except.error (Thrown.err ⟨none, none,
        "Failed to generate quiz after trying multiple models. quota exceeded for project"⟩)
    ∧ containsStr
        "Failed to generate quiz after trying multiple models. quota exceeded for project"
        "Quota" = false :=
  ⟨rfl, rfl⟩

/-- The trace of one exhausted `withRetry` run over `eQuotaW`. -/
def quotaRetryEvs : List Event :=
  [Event.attempt 0, Event.delay 1000, Event.attempt 1, Event.delay 2000,
   Event.attempt 2, Event.delay 4000]

theorem c3_witness :
    (((sendMessage envQuotaW [] "hi" []).1 =
        Except.error (Thrown.err ⟨none, none, quotaExhaustedMsg⟩)
      ∧ containsStr quotaExhaustedMsg "Quota" = true)
    ∧ ((generateQuiz envQuotaW "t" none "medium" 5).1 =
        Except.error (Thrown.err ⟨none, none, quizFinalLead ++ eQuotaW.message⟩)
      ∧ containsStr (quizFinalLead ++ eQuotaW.message) "quota" = true)
    ∧ ((generateFlashcards envQuotaW "t" none 5).1 =
        Except.error (Thrown.err ⟨none, none, cardsFinalLead ++ eQuotaW.message⟩)
      ∧ containsStr (cardsFinalLead ++ eQuotaW.message) "quota" = true)) :=
  c3_quota_exhaustion_messages envQuotaW [] "hi" "t" "medium" [] none 5 (fun _ => eQuotaW)
    (by decide) (fun m _ => ⟨quotaRetryEvs, rfl⟩)
    (by decide : containsStr eQuotaW.message "quota" = true)

/-- C7 (amended): when every candidate fails, the last observed failure
does not mention "quota", and it is 404-class in the sense the final
classification tests — `status` equal to 404 or message containing
"not found" (a message containing only the digits "404" does not
qualify) — `sendMessage` surfaces the key/model-validity message. -/
theorem c7_exhaustion_not_found_message (env : Env) (hist : List ChatMessage)
    (cur : String) (files : List FileData) (E : String → Err)
    (hkey : env.apiKey ≠ "")
    (hall : ∀ m ∈ MODELS, ∃ evs,
      withRetry (env.net m) 3 1000 = (Except.error (Thrown.err (E m)), evs))
    (hnq : containsStr (E "gemini-1.5-pro").message "quota" = false)
    (h404 : (E "gemini-1.5-pro").status = some 404
      ∨ containsStr (E "gemini-1.5-pro").message "not found" = true) :
    (sendMessage env hist cur files).1 =
      Except.error (Thrown.err ⟨none, none, modelsNotFoundMsg⟩)
    ∧ containsStr modelsNotFoundMsg "verify your key in Google AI Studio" = true := by
  constructor
  · unfold sendMessage
    rw [if_neg hkey]
    rw [sendMessageLoop_all_fail env hist cur files E MODELS "gemini-1.5-pro" none rfl hall]
    simp [finalSendError, hnq, h404]
  · decide

/-- Failure whose message contains "404" but neither "not found" nor
"quota", and whose `status` field is unset: 404-class per the claim's
wording but not per the code's final classification. -/
def e404TextW : Err := ⟨none, none, "Request failed with code 404"⟩

/-- Environment whose every network attempt fails with `e404TextW`. -/
def env404TextW : Env := ⟨"key", fun _ _ => Except.error e404TextW⟩

/-- C7 as stated is false: all candidates fail with a message containing
"404" (404-class per the claim), yet the surfaced message is the generic
one, not the key/model-validity message. -/
theorem c7_counterexample :
    (sendMessage env404TextW [] "hi" []).1 =
      Except.error (Thrown.err ⟨none, none,
        "Failed to get AI response after trying multiple models. Request failed with code 404"⟩)
    ∧ containsStr e404TextW.message "404" = true
    ∧ "Failed to get AI response after trying multiple models. Request failed with code 404"
        ≠ modelsNotFoundMsg
    ∧ containsStr
        "Failed to get AI response after trying multiple models. Request failed with code 404"
        "verify your key" = false :=
  ⟨rfl, rfl, by decide, rfl⟩

/-- Failure with `status` 404, used by the C7 witness. -/
def e404StatusW : Err := ⟨some 404, none, "model gemini-x is not supported"⟩

/-- Environment whose every network attempt fails with `e404StatusW`. -/
def env404StatusW : Env := ⟨"key", fun _ _ => Except.error e404StatusW⟩

theorem c7_witness :
    (sendMessage env404StatusW [] "hi" []).1 =
      Except.error (Thrown.err ⟨none, none, modelsNotFoundMsg⟩)
    ∧ containsStr modelsNotFoundMsg "verify your key in Google AI Studio" = true :=
  c7_exhaustion_not_found_message env404StatusW [] "hi" [] (fun _ => e404StatusW)
    (by decide) (fun m _ => ⟨[Event.attempt 0], rfl⟩)
    (by decide : containsStr e404StatusW.message "quota" = false)
    (Or.inl rfl)

/-! ## Key checking (C2) -/

lemma genLoop_trace_head (env : Env) (parts : List ReqPart) (pfx mn : String)
    (rest : List String) (le : Option Err) :
    ∃ t, (genLoop env parts pfx (mn :: rest) le).2 =
      Event.callModel mn [] parts :: Event.attempt 0 :: t := by
  obtain ⟨t0, ht0⟩ := withRetry_trace_head (env.net mn) 1000
  rcases hw : withRetry (env.net mn) 3 1000 with ⟨res, evs⟩
  rw [hw] at ht0
  simp only at ht0
  cases res with
  | ok txt =>
    cases hj : jsonParse (cleanResponse txt) with
    | none =>
      rw [genLoop_parsefail_step env parts pfx mn rest le txt evs hw hj]
      exact ⟨t0 ++ (genLoop env parts pfx rest (some parseFailErr)).2, by simp [ht0]⟩
    | some v =>
      rw [genLoop_ok_step env parts pfx mn rest le txt evs v hw hj]
      exact ⟨t0, by simp [ht0]⟩
  | error t =>
    rw [genLoop_err_step env parts pfx mn rest le t evs hw]
    exact ⟨t0 ++ (genLoop env parts pfx rest (errOf t)).2, by simp [ht0]⟩

/-- C2 (amended): only `sendMessage` checks the API key.  With an absent
(empty) key, `sendMessage` fails immediately with the instructive
missing-key message and an empty trace (no network attempt), while
`generateQuiz` and `generateFlashcards` perform no key check: their
traces begin with a model call and a first network attempt regardless of
the key. -/
theorem c2_only_sendMessage_checks_key :
    (∀ (env : Env) (hist : List ChatMessage) (cur : String) (files : List FileData),
      env.apiKey = "" →
      sendMessage env hist cur files =
        (Except.error (Thrown.err ⟨none, none, keyMissingMsg⟩), []))
    ∧ (∀ (env : Env) (topic : String) (fd : Option FileData) (diff : String) (count : Nat),
      env.apiKey = "" →
      ∃ t, (generateQuiz env topic fd diff count).2 =
        Event.callModel "gemini-flash-latest" [] (quizParts topic fd diff count)
          :: Event.attempt 0 :: t)
    ∧ (∀ (env : Env) (topic : String) (fd : Option FileData) (count : Nat),
      env.apiKey = "" →
      ∃ t, (generateFlashcards env topic fd count).2 =
        Event.callModel "gemini-flash-latest" [] (cardParts topic fd count)
          :: Event.attempt 0 :: t) := by
  refine ⟨?_, ?_, ?_⟩
  · intro env hist cur files hkey
    unfold sendMessage
    rw [if_pos hkey]
  · intro env topic fd diff count _
    unfold generateQuiz
    exact genLoop_trace_head env (quizParts topic fd diff count) quizFinalLead
      "gemini-flash-latest"
      ["gemini-2.0-flash", "gemini-2.0-flash-lite-preview-09-2025", "gemini-1.5-pro"] none
  · intro env topic fd count _
    unfold generateFlashcards
    exact genLoop_trace_head env (cardParts topic fd count) cardsFinalLead
      "gemini-flash-latest"
      ["gemini-2.0-flash", "gemini-2.0-flash-lite-preview-09-2025", "gemini-1.5-pro"] none

/-- Environment with an absent API key whose network rejects every
attempt the way the upstream service rejects an empty key. -/
def envEmptyKeyW : Env :=
  ⟨"", fun _ _ => Except.error ⟨some 400, none, "API key not valid."⟩⟩

/-- C2 as stated is false for `generateQuiz`: with the key absent it
still attempts the network (non-empty trace) and surfaces the generic
exhaustion message, not the instructive missing-key message. -/
theorem c2_counterexample :
    (generateQuiz envEmptyKeyW "t" none "medium" 5).2 ≠ []
    ∧ (generateQuiz envEmptyKeyW "t" none "medium" 5).1 =
        Except.error (Thrown.err ⟨none, none,
          "Failed to generate quiz after trying multiple models. API key not valid."⟩)
    ∧ "Failed to generate quiz after trying multiple models. API key not valid."
        ≠ keyMissingMsg :=
  ⟨by decide, rfl, by decide⟩

theorem c2_witness :
    sendMessage envEmptyKeyW [] "hi" [] =
      (Except.error (Thrown.err ⟨none, none, keyMissingMsg⟩), [])
    ∧ (∃ t, (generateQuiz envEmptyKeyW "t" none "medium" 5).2 =
        Event.callModel "gemini-flash-latest" [] (quizParts "t" none "medium" 5)
          :: Event.attempt 0 :: t)
    ∧ (∃ t, (generateFlashcards envEmptyKeyW "t" none 5).2 =
        Event.callModel "gemini-flash-latest" [] (cardParts "t" none 5)
          :: Event.attempt 0 :: t) :=
  ⟨c2_only_sendMessage_checks_key.1 envEmptyKeyW [] "hi" [] rfl,
   c2_only_sendMessage_checks_key.2.1 envEmptyKeyW "t" none "medium" 5 rfl,
   c2_only_sendMessage_checks_key.2.2 envEmptyKeyW "t" none 5 rfl⟩

/-! ## Fallback order and first success (C8) -/

/-- The candidate models a trace actually switched to, in order. -/
def modelsTried : List Event → List String
  | [] => []
  | Event.callModel m _ _ :: rest => m :: modelsTried rest
  | _ :: rest => modelsTried rest

lemma modelsTried_append (a b : List Event) :
    modelsTried (a ++ b) = modelsTried a ++ modelsTried b := by
  induction a with
  | nil => simp [modelsTried]
  | cons e a' ih => cases e <;> simp [modelsTried, ih]

lemma modelsTried_withRetryLoop {α : Type} (fn : Nat → Except Err α) (d : Nat) :
    ∀ r i le, modelsTried (withRetryLoop fn d i r le).2 = [] := by
  intro r
  induction r with
  | zero => intro i le; simp [withRetryLoop, modelsTried]
  | succ r ih =>
    intro i le
    cases hfn : fn i with
    | ok v => simp [withRetryLoop, hfn, modelsTried]
    | error e =>
      by_cases hr : isRetryable e = true
      · rw [withRetryLoop_retry_step fn d i r le e hfn hr]
        simp [modelsTried, ih]
      · simp [withRetryLoop, hfn, hr, modelsTried]

lemma modelsTried_withRetry {α : Type} (fn : Nat → Except Err α) (mr : Int) (d : Nat) :
    modelsTried (withRetry fn mr d).2 = [] :=
  modelsTried_withRetryLoop fn d mr.toNat 0 none

lemma sendMessageLoop_first_success (env : Env) (hist : List ChatMessage) (cur : String)
    (files : List FileData) (txt : String) :
    ∀ (pre : List String) (post : List String) (mn : String) (le : Option Err),
      (∀ m ∈ pre, ∃ t evs, withRetry (env.net m) 3 1000 = (Except.error t, evs)) →
      (∃ evs, withRetry (env.net mn) 3 1000 = (Except.ok txt, evs)) →
      (sendMessageLoop env hist cur files (pre ++ mn :: post) le).1 = Except.ok txt
      ∧ modelsTried (sendMessageLoop env hist cur files (pre ++ mn :: post) le).2
          = pre ++ [mn] := by
  intro pre
  induction pre with
  | nil =>
    intro post mn le _ hok
    obtain ⟨evs, hw⟩ := hok
    have hm0 : modelsTried evs = [] := by
      have h := modelsTried_withRetry (env.net mn) 3 1000
      rw [hw] at h
      simpa using h
    rw [List.nil_append, sendMessageLoop_ok_step env hist cur files mn post le txt evs hw]
    exact ⟨rfl, by simp [modelsTried, hm0]⟩
  | cons p pre' ih =>
    intro post mn le hpre hok
    obtain ⟨t, evs, hw⟩ := hpre p (by simp)
    have hm0 : modelsTried evs = [] := by
      have h := modelsTried_withRetry (env.net p) 3 1000
      rw [hw] at h
      simpa using h
    rw [List.cons_append,
      sendMessageLoop_err_step env hist cur files p (pre' ++ mn :: post) le t evs hw]
    obtain ⟨h1, h2⟩ := ih post mn (errOf t) (fun m hm => hpre m (by simp [hm])) hok
    exact ⟨h1, by simp [modelsTried_append, modelsTried, hm0, h2]⟩

/-- C8: candidates are attempted strictly in the fixed `MODELS` order,
each attempt wrapped in `withRetry`; whatever the failure class of the
earlier candidates, the loop advances, and the first candidate whose
wrapped call succeeds determines the returned reply text, with no later
candidate attempted. -/
theorem c8_model_fallback_order (env : Env) (hist : List ChatMessage) (cur : String)
    (files : List FileData) (pre post : List String) (mn txt : String)
    (hkey : env.apiKey ≠ "")
    (hsplit : MODELS = pre ++ mn :: post)
    (hpre : ∀ m ∈ pre, ∃ t evs, withRetry (env.net m) 3 1000 = (Except.error t, evs))
    (hok : ∃ evs, withRetry (env.net mn) 3 1000 = (Except.ok txt, evs)) :
    (sendMessage env hist cur files).1 = Except.ok txt
    ∧ modelsTried (sendMessage env hist cur files).2 = pre ++ [mn] := by
  unfold sendMessage
  rw [if_neg hkey, hsplit]
  exact sendMessageLoop_first_success env hist cur files txt pre post mn none hpre hok

/-- Environment whose first candidate fails with an unclassified
400-class error and whose later candidates succeed. -/
def envSplitW : Env :=
  ⟨"key", fun m _ =>
    if m = "gemini-flash-latest" then Except.error ⟨some 400, none, "bad request"⟩
    else Except.ok "reply"⟩

theorem c8_witness :
    (sendMessage envSplitW [] "hi" []).1 = Except.ok "reply"
    ∧ modelsTried (sendMessage envSplitW [] "hi" []).2 =
        ["gemini-flash-latest", "gemini-2.0-flash"] :=
  c8_model_fallback_order envSplitW [] "hi" [] ["gemini-flash-latest"]
    ["gemini-2.0-flash-lite-preview-09-2025", "gemini-1.5-pro"] "gemini-2.0-flash" "reply"
    (by decide) rfl
    (by
      intro m hm
      simp at hm
      subst hm
      exact ⟨Thrown.err ⟨some 400, none, "bad request"⟩, [Event.attempt 0], rfl⟩)
    ⟨[Event.attempt 0], rfl⟩

/-! ## Code-fence stripping (C6, C10) -/

lemma length_le_of_isPrefixOf : ∀ p l : List Char, p.isPrefixOf l = true → p.length ≤ l.length := by
  intro p
  induction p with
  | nil => intro l _; simp
  | cons a p' ih =>
    intro l h
    cases l with
    | nil => simp [List.isPrefixOf] at h
    | cons b l' =>
      simp only [List.isPrefixOf, Bool.and_eq_true] at h
      have := ih l' h.2
      simp only [List.length_cons]
      omega

lemma isPrefixOf_append_nl :
    ∀ p cs rest : List Char, '\n' ∉ p →
      p.isPrefixOf (cs ++ '\n' :: rest) = p.isPrefixOf cs := by
  intro p
  induction p with
  | nil => intro cs rest _; simp [List.isPrefixOf]
  | cons a p' ih =>
    intro cs rest h
    have ha : a ≠ '\n' := fun heq => h (by simp [heq])
    have hp' : '\n' ∉ p' := fun hm => h (by simp [hm])
    cases cs with
    | nil =>
      simp only [List.nil_append, List.isPrefixOf]
      rw [show (a == '\n') = false from beq_eq_false_iff_ne.mpr ha]
      simp
    | cons c cs' =>
      simp only [List.cons_append, List.isPrefixOf, List.append_eq]
      rw [ih cs' rest hp']

lemma isPrefixOf_self_append : ∀ p r : List Char, p.isPrefixOf (p ++ r) = true := by
  intro p r
  induction p with
  | nil => simp [List.isPrefixOf]
  | cons a p' ih => simp [List.isPrefixOf, ih]

lemma stripFencesGo_congr :
    ∀ (f1 : Nat) (cs : List Char) (f2 : Nat), cs.length ≤ f1 → cs.length ≤ f2 →
      stripFencesGo f1 cs = stripFencesGo f2 cs := by
  intro f1
  induction f1 with
  | zero =>
    intro cs f2 h1 _
    have hnil : cs = [] := List.eq_nil_of_length_eq_zero (by omega)
    subst hnil
    cases f2 <;> rfl
  | succ f ih =>
    intro cs f2 h1 h2
    cases cs with
    | nil => cases f2 <;> rfl
    | cons c cs' =>
      obtain ⟨g, rfl⟩ : ∃ g, f2 = g + 1 := by
        cases f2 with
        | zero => simp at h2
        | succ g => exact ⟨g, rfl⟩
      by_cases hj : fenceJson.isPrefixOf (c :: cs') = true
      · have hlen : 7 ≤ (c :: cs').length := by
          simpa [fenceJson] using length_le_of_isPrefixOf fenceJson (c :: cs') hj
        simp only [stripFencesGo, hj, if_true]
        exact ih ((c :: cs').drop 7) g
          (by simp only [List.length_drop]; omega)
          (by simp only [List.length_drop]; omega)
      · by_cases hf : fence.isPrefixOf (c :: cs') = true
        · have hlen : 3 ≤ (c :: cs').length := by
            simpa [fence] using length_le_of_isPrefixOf fence (c :: cs') hf
          simp only [stripFencesGo, hj, hf, if_true, Bool.false_eq_true, if_false]
          exact ih ((c :: cs').drop 3) g
            (by simp only [List.length_drop]; omega)
            (by simp only [List.length_drop]; omega)
        · simp only [stripFencesGo, hj, hf, Bool.false_eq_true, if_false]
          have := ih cs' g (by simp at h1; omega) (by simp at h2; omega)
          rw [this]

/-- The trailing "\n```" of a fence-wrapped response, as characters. -/
def newlineFence : List Char := '\n' :: fence

lemma stripFencesGo_append_newlineFence :
    ∀ (fuel : Nat) (cs : List Char), cs.length + 4 ≤ fuel →
      stripFencesGo fuel (cs ++ newlineFence) = stripFencesGo fuel cs ++ ['\n'] := by
  intro fuel
  induction fuel with
  | zero => intro cs h; omega
  | succ f ih =>
    intro cs h
    cases cs with
    | nil =>
      have hjf : fenceJson.isPrefixOf ('\n' :: fence) = false := by decide
      have hff : fence.isPrefixOf ('\n' :: fence) = false := by decide
      have hG : stripFencesGo f fence = [] := by
        rw [stripFencesGo_congr f fence 3 (by simp [fence]; omega) (by simp [fence])]
        decide
      simp [newlineFence, stripFencesGo, hjf, hff, hG]
    | cons c cs' =>
      have hnj : '\n' ∉ fenceJson := by decide
      have hnf : '\n' ∉ fence := by decide
      have hcond1 : fenceJson.isPrefixOf (c :: (cs' ++ newlineFence))
          = fenceJson.isPrefixOf (c :: cs') := by
        simpa [newlineFence, List.cons_append] using
          isPrefixOf_append_nl fenceJson (c :: cs') fence hnj
      have hcond2 : fence.isPrefixOf (c :: (cs' ++ newlineFence))
          = fence.isPrefixOf (c :: cs') := by
        simpa [newlineFence, List.cons_append] using
          isPrefixOf_append_nl fence (c :: cs') fence hnf
      rw [List.cons_append]
      by_cases hj : fenceJson.isPrefixOf (c :: cs') = true
      · have hlen : 7 ≤ (c :: cs').length := by
          simpa [fenceJson] using length_le_of_isPrefixOf fenceJson (c :: cs') hj
        have hdrop : (c :: (cs' ++ newlineFence)).drop 7 = (c :: cs').drop 7 ++ newlineFence := by
          simpa [List.cons_append] using
            @List.drop_append_of_le_length Char (c :: cs') newlineFence 7 hlen
        simp only [stripFencesGo, hcond1, hj, if_true, hdrop]
        rw [ih ((c :: cs').drop 7) (by simp only [List.length_drop]; omega)]
      · by_cases hf : fence.isPrefixOf (c :: cs') = true
        · have hlen : 3 ≤ (c :: cs').length := by
            simpa [fence] using length_le_of_isPrefixOf fence (c :: cs') hf
          have hdrop : (c :: (cs' ++ newlineFence)).drop 3 = (c :: cs').drop 3 ++ newlineFence := by
            simpa [List.cons_append] using
              @List.drop_append_of_le_length Char (c :: cs') newlineFence 3 hlen
          simp only [stripFencesGo, hcond1, hcond2, hj, hf, if_true,
            Bool.false_eq_true, if_false, hdrop]
          rw [ih ((c :: cs').drop 3) (by simp only [List.length_drop]; omega)]
        · simp only [stripFencesGo, hcond1, hcond2, hj, hf, Bool.false_eq_true, if_false]
          rw [ih cs' (by simp at h; omega)]
          simp

lemma stripFencesGo_succ_json (f : Nat) (c : Char) (cs : List Char)
    (h : fenceJson.isPrefixOf (c :: cs) = true) :
    stripFencesGo (f + 1) (c :: cs) = stripFencesGo f ((c :: cs).drop 7) := by
  simp [stripFencesGo, h]

lemma fenceJson_no_match_nl (x : List Char) : fenceJson.isPrefixOf ('\n' :: x) = false := by
  rw [show fenceJson = tickC :: [tickC, tickC, 'j', 's', 'o', 'n'] from rfl]
  simp only [List.isPrefixOf]
  rw [show (tickC == '\n') = false from rfl]
  simp

lemma fence_no_match_nl (x : List Char) : fence.isPrefixOf ('\n' :: x) = false := by
  rw [show fence = tickC :: [tickC, tickC] from rfl]
  simp only [List.isPrefixOf]
  rw [show (tickC == '\n') = false from rfl]
  simp

lemma stripFencesGo_wrap_head (f : Nat) (X : List Char) :
    stripFencesGo (f + 2) (fenceJson ++ '\n' :: X) = '\n' :: stripFencesGo f X := by
  have h1 : fenceJson.isPrefixOf (fenceJson ++ '\n' :: X) = true :=
    isPrefixOf_self_append fenceJson ('\n' :: X)
  have h2 : (fenceJson ++ '\n' :: X).drop 7 = '\n' :: X := by simp [fenceJson]
  rw [show fenceJson ++ '\n' :: X
      = tickC :: ([tickC, tickC, 'j', 's', 'o', 'n'] ++ '\n' :: X) from rfl] at h1 h2 ⊢
  rw [show f + 2 = (f + 1) + 1 from rfl]
  rw [stripFencesGo_succ_json (f + 1) tickC _ h1, h2]
  have h3 := fenceJson_no_match_nl X
  have h4 := fence_no_match_nl X
  simp [stripFencesGo, h3, h4]

lemma stripFences_wrap (td : List Char) :
    stripFences (fenceJson ++ '\n' :: (td ++ newlineFence))
      = '\n' :: (stripFences td ++ ['\n']) := by
  unfold stripFences
  have hlen : (fenceJson ++ '\n' :: (td ++ newlineFence)).length = td.length + 12 := by
    simp only [List.length_append, List.length_cons, fenceJson, newlineFence, fence,
      List.length_nil]
    omega
  rw [hlen]
  rw [show td.length + 12 = (td.length + 10) + 2 from rfl]
  rw [stripFencesGo_wrap_head (td.length + 10) (td ++ newlineFence)]
  rw [stripFencesGo_append_newlineFence (td.length + 10) td (by omega)]
  have := stripFencesGo_congr (td.length + 10) td td.length (by omega) (Nat.le_refl _)
  rw [this]

lemma trimChars_cons_nl (l : List Char) : trimChars ('\n' :: l) = trimChars l := by
  unfold trimChars
  rw [List.dropWhile_cons]
  rw [show Char.isWhitespace '\n' = true from rfl]
  simp

lemma trimChars_append_nl (l : List Char) : trimChars (l ++ ['\n']) = trimChars l := by
  have hnl : Char.isWhitespace '\n' = true := rfl
  unfold trimChars
  rw [List.dropWhile_append]
  rcases h : l.dropWhile Char.isWhitespace with _ | ⟨c, cs⟩
  · simp [h, List.dropWhile_cons, hnl]
  · simp only [h, List.isEmpty_cons, if_false, Bool.false_eq_true]
    rw [List.reverse_append]
    simp [List.dropWhile_cons, hnl]

/-- C6: wrapping any response text in code-fence markup with newlines
yields, after the cleaning step (global fence strip then trim), exactly
the same string as the unwrapped text, so the subsequent `JSON.parse`
yields the same value. -/
theorem c6_fence_wrapped_parses_identically (t : String) :
    cleanResponse ("```json\n" ++ t ++ "\n```") = cleanResponse t
    ∧ jsonParse (cleanResponse ("```json\n" ++ t ++ "\n```"))
        = jsonParse (cleanResponse t) := by
  have hmain : cleanResponse ("```json\n" ++ t ++ "\n```") = cleanResponse t := by
    unfold cleanResponse
    have hdata : ("```json\n" ++ t ++ "\n```").data
        = fenceJson ++ '\n' :: (t.data ++ newlineFence) := by
      rw [String.data_append, String.data_append]
      rw [show ("```json\n").data = fenceJson ++ ['\n'] from by decide,
          show ("\n```").data = newlineFence from by decide]
      simp
    rw [hdata, stripFences_wrap t.data, trimChars_cons_nl, trimChars_append_nl]
  exact ⟨hmain, by rw [hmain]⟩

/-- Raw response whose JSON string content contains a fence sequence. -/
def rawFencedW : String := "\x7b\"front\":\"a```b\"\x7d"

/-- Environment whose every attempt succeeds with `rawFencedW`. -/
def envFencedW : Env := ⟨"key", fun _ _ => Except.ok rawFencedW⟩

/-- String content of the first field of an object, used to tell two
parsed values apart. -/
def firstFieldStr : Json → String
  | Json.obj ((_, Json.str s) :: _) => s
  | _ => ""

/-- C10: the fence replace is a global regex replace, not the removal of
one surrounding fence: a successful response whose JSON string content
contains a fence sequence is returned as a different value than the
direct JSON parse of the raw response text, because the sequence is
deleted from inside the string literal. -/
theorem c10_global_strip_alters_string_content :
    (generateQuiz envFencedW "topic" none "medium" 5).1 =
      Except.ok (Json.obj [("front", Json.str "ab")])
    ∧ jsonParse rawFencedW = some (Json.obj [("front", Json.str "a```b")])
    ∧ Json.obj [("front", Json.str "ab")] ≠ Json.obj [("front", Json.str "a```b")] :=
  ⟨rfl, rfl, fun h => absurd (congrArg firstFieldStr h) (by decide)⟩

end StudyBuddy
